import Mathlib

/-!
Shallow embedding of the Elowa depot operations core: the day-state
resolver, the cash reconciliation calculator, the compliance / trust
scorer and the aggregation helpers, translated from the TypeScript
source (src/app/admin/page.tsx, src/app/admin/signals/*.ts,
src/unnamed/part_000, src/unnamed/part_002).  JS numbers that enter
divisions are modelled as rationals; counts and scores as integers or
naturals.  `Math.round x` is modelled as `⌊x + 1/2⌋`, which agrees with
JS semantics on all inputs that arise here.
-/

/-- Day lifecycle state of a depot, from src/unnamed/part_000 (type
`DepotDayState`). -/
inductive DepotDayState where
  | NOT_OPENED
  | OPENED
  | CLOSED
deriving DecidableEq

/-- Day-state resolution as performed by `loadAllDepotStates`
(src/unnamed/part_000 lines 212-242 and src/app/page.tsx): when no open
row exists the state is set to NOT_OPENED and the close row is never
consulted; otherwise the state is CLOSED when a close row exists, else
OPENED. -/
def resolveState (hasOpenRecord hasCloseRecord : Bool) : DepotDayState :=
  if !hasOpenRecord then DepotDayState.NOT_OPENED
  else if hasCloseRecord then DepotDayState.CLOSED
  else DepotDayState.OPENED

/-- One depot-day event row as consumed by the admin dashboard
(src/app/admin/page.tsx, type `DepotDayEvent`); only the fields the
reconciliation arithmetic reads are modelled, as rationals. -/
structure DepotDayEvent where
  opening_cash_cfa : ℚ
  cash_sales_cfa : ℚ
  mobile_sales_cfa : ℚ
  restock_cash_used : ℚ
  closing_cash_physical : ℚ
deriving DecidableEq

/-- Named tolerance constant, src/app/admin/page.tsx line 120. -/
def CASH_REVIEW_TOLERANCE_PCT : ℚ := 5

/-- `getExpectedCash`, src/app/admin/page.tsx lines 123-124:
`opening_cash_cfa + cash_sales_cfa - restock_cash_used`. -/
def getExpectedCash (d : DepotDayEvent) : ℚ :=
  d.opening_cash_cfa + d.cash_sales_cfa - d.restock_cash_used

/-- Result record of `getCashReview` (src/app/admin/page.tsx). -/
structure CashReview where
  expected : ℚ
  actual : ℚ
  diff : ℚ
  pct : ℚ
  needsReview : Bool
deriving DecidableEq

/-- `getCashReview`, src/app/admin/page.tsx lines 125-132:
`diff = Math.abs(actual - expected)`,
`pct = expected > 0 ? (diff / expected) * 100 : 0`,
`needsReview = expected === 0 ? actual !== 0 : pct > CASH_REVIEW_TOLERANCE_PCT`. -/
def getCashReview (d : DepotDayEvent) : CashReview :=
  let expected := getExpectedCash d
  let actual := d.closing_cash_physical
  let diff := |actual - expected|
  let pct := if 0 < expected then diff / expected * 100 else 0
  let needsReview :=
    if expected = 0 then decide (actual ≠ 0)
    else decide (CASH_REVIEW_TOLERANCE_PCT < pct)
  ⟨expected, actual, diff, pct, needsReview⟩

/-- Input to the trust scorer, src/app/admin/signals (type
`TrustScoreInput`); the four counts are JS numbers, modelled as
integers. -/
structure TrustScoreInput where
  lateOpens : ℤ
  missedCloses : ℤ
  varianceDays : ℤ
  inactiveDays : ℤ
deriving DecidableEq

/-- `computeTrustScore`, src/app/admin/signals/computeSalesMomentum.ts
lines 164-178: start at 100, subtract 5 / 10 / 25 / 1 per event, then
`Math.max(0, Math.min(100, score))`. -/
def computeTrustScore (input : TrustScoreInput) : ℤ :=
  let score := 100 - input.lateOpens * 5 - input.missedCloses * 10
    - input.varianceDays * 25 - input.inactiveDays * 1
  max 0 (min 100 score)

/-- One compliance event, src/app/admin/signals/computeCompliance.ts
(type `ComplianceEventInput`).  The source carries the business date as
an ISO `YYYY-MM-DD` string and orders dates with `localeCompare`, which
on such strings is lexicographic and therefore chronological; dates are
modelled as naturals in that chronological order. -/
structure ComplianceEventInput where
  date : ℕ
  openedLate : Bool
  closed : Bool
  hasVariance : Bool
deriving DecidableEq

/-- Per-depot compliance input, src/app/admin/signals/computeCompliance.ts. -/
structure ComplianceInput where
  depotId : String
  events : List ComplianceEventInput

/-- Binary compliance status, src/app/admin/signals/computeCompliance.ts. -/
inductive ComplianceStatus where
  | CLEAN
  | NOT_CLEAN
deriving DecidableEq

/-- Per-depot compliance output record, src/app/admin/signals/computeCompliance.ts. -/
structure DepotCompliance where
  depotId : String
  status : ComplianceStatus
  consecutiveCleanDays : ℕ
  lastVarianceDate : Option ℕ
  lateOpenCount : ℕ
  missedDayCount : ℕ
  trustScore : ℤ
deriving DecidableEq

/-- The per-event cleanliness test used by the streak loop,
src/app/admin/signals/computeCompliance.ts line 64:
`!event.openedLate && event.closed && !event.hasVariance`. -/
def isClean (e : ComplianceEventInput) : Bool :=
  !e.openedLate && e.closed && !e.hasVariance

/-- The streak loop of `computeDepotCompliance` (lines 63-71): walk the
descending-sorted events, breaking at the first non-clean event and
counting the clean ones seen before the break. -/
def cleanStreak : List ComplianceEventInput → ℕ
  | [] => 0
  | e :: rest => if isClean e then cleanStreak rest + 1 else 0

/-- The descending date sort of `computeDepotCompliance` (line 41):
`[...input.events].sort((a, b) => b.date.localeCompare(a.date))`, a
stable sort putting the lexicographically largest date first. -/
def sortEventsDesc (l : List ComplianceEventInput) : List ComplianceEventInput :=
  l.insertionSort (fun a b => b.date ≤ a.date)

/-- `computeDepotCompliance`, src/app/admin/signals/computeCompliance.ts
lines 36-85: sorts events most-recent first, counts violations over the
first 14, computes the clean streak over the whole sorted list, and
reports CLEAN exactly when the streak is at least 7; the `trustScore`
argument is passed through unchanged. -/
def computeDepotCompliance (input : ComplianceInput) (trustScore : ℤ) :
    DepotCompliance :=
  let sorted := sortEventsDesc input.events
  let last14 := sorted.take 14
  { depotId := input.depotId
    status := if 7 ≤ cleanStreak sorted then ComplianceStatus.CLEAN
              else ComplianceStatus.NOT_CLEAN
    consecutiveCleanDays := cleanStreak sorted
    lastVarianceDate := ((last14.filter fun e => e.hasVariance).head?).map
      fun e => e.date
    lateOpenCount := (last14.filter fun e => e.openedLate).length
    missedDayCount := (last14.filter fun e => !e.closed).length
    trustScore := trustScore }

/-- The trust-score input assembled by the admin signals pipeline,
src/unnamed/part_002 lines 707-717: each count filters the (at most 30)
events, and `inactiveDays = 30 - events.length`. -/
def trustInputOfEvents (events : List ComplianceEventInput) : TrustScoreInput :=
  { lateOpens := ((events.filter fun e => e.openedLate).length : ℤ)
    missedCloses := ((events.filter fun e => !e.closed).length : ℤ)
    varianceDays := ((events.filter fun e => e.hasVariance).length : ℤ)
    inactiveDays := (30 : ℤ) - (events.length : ℤ) }

/-- `Math.round` on a rational: round half away from zero is what JS
does for positive halves; JS rounds half toward +∞ in general, which is
`⌊x + 1/2⌋`. -/
def jsRound (q : ℚ) : ℤ := ⌊q + 1 / 2⌋

/-- `computeSystemCompliance`, src/app/admin/signals/computeCompliance.ts
lines 90-97: `expectedEvents > 0 ? Math.round(validEvents / expectedEvents * 100) : 0`. -/
def computeSystemCompliance (expectedEvents validEvents : ℚ) : ℤ :=
  if 0 < expectedEvents then jsRound (validEvents / expectedEvents * 100)
  else 0

/-- A local wall-clock time, as extracted from a parsed open timestamp
via `getHours()` / `getMinutes()` in src/unnamed/part_002. -/
structure LocalTime where
  hour : ℕ
  minute : ℕ
deriving DecidableEq

/-- The late-open test of the admin signals pipeline, src/unnamed/part_002
lines 694-696: `openedAt ? openedAt.getHours() > 8 : false`. -/
def openedLateAt (t : Option LocalTime) : Bool :=
  match t with
  | none => false
  | some time => decide (8 < time.hour)

/-- Follows the spec words (§4.3): a late open is an open timestamp
strictly later than the 08:00 cutoff. -/
def specLaterThanCutoff (t : LocalTime) : Bool :=
  decide (8 < t.hour ∨ (t.hour = 8 ∧ 0 < t.minute))

/-- One daily sales point, src/app/admin/signals/computeSalesMomentum.ts
(type `DailySalesInput`).  As with compliance events, the ISO date
string — compared lexicographically, hence chronologically, by the
source — is modelled as a natural number. -/
structure DailySalesInput where
  date : ℕ
  sales : ℚ
deriving DecidableEq

/-- The ascending date sort of `computeSalesMomentum` (line 34):
`[...dailySales].sort((a, b) => a.date.localeCompare(b.date))`. -/
def sortSalesAsc (l : List DailySalesInput) : List DailySalesInput :=
  l.insertionSort (fun a b => a.date ≤ b.date)

/-- `window.reduce((sum, d) => sum + d.sales, 0)` from
src/app/admin/signals/computeSalesMomentum.ts. -/
def sumSales (l : List DailySalesInput) : ℚ :=
  l.foldl (fun s d => s + d.sales) 0

/-- The rolling window at index `i`:
`sorted.slice(Math.max(0, index - 6), index + 1)`
(src/app/admin/signals/computeSalesMomentum.ts line 48); natural
subtraction renders `Math.max(0, i - 6)` as `i - 6`. -/
def windowAt (sorted : List DailySalesInput) (i : ℕ) : List DailySalesInput :=
  (sorted.drop (i - 6)).take (i + 1 - (i - 6))

/-- One chart point produced by `computeSalesMomentum`. -/
structure ChartPoint where
  date : ℕ
  sales : ℚ
  rollingAvg : ℚ
deriving DecidableEq

/-- The indexed map of `computeSalesMomentum` lines 47-56, recursing over
the sorted list while tracking the JS map index. -/
def chartDataAux (sorted : List DailySalesInput) :
    ℕ → List DailySalesInput → List ChartPoint
  | _, [] => []
  | i, item :: rest =>
    let window := windowAt sorted i
    ⟨item.date, item.sales, sumSales window / (window.length : ℚ)⟩ ::
      chartDataAux sorted (i + 1) rest

/-- The `chartData` array of `computeSalesMomentum` lines 47-56: per-point
7-day rolling averages over the ascending-sorted series. -/
def chartData (l : List DailySalesInput) : List ChartPoint :=
  let sorted := sortSalesAsc l
  chartDataAux sorted 0 sorted

/-- The trailing 7-day average of `computeSalesMomentum` lines 59-60
(`sorted.slice(-7)` then mean), before the final `Math.round` applied to
the returned `rolling7DayAvg` field. -/
def last7Avg (l : List DailySalesInput) : ℚ :=
  let sorted := sortSalesAsc l
  let last7 := sorted.drop (sorted.length - 7)
  sumSales last7 / (last7.length : ℚ)

/-- `reduce((sum, d) => sum + d.cash_sales_cfa + d.mobile_sales_cfa, 0)`
from the monthly aggregation in src/unnamed/part_002. -/
def sumSalesCM (l : List DepotDayEvent) : ℚ :=
  l.foldl (fun s d => s + (d.cash_sales_cfa + d.mobile_sales_cfa)) 0

/-- `previousMonthSales`, src/unnamed/part_002 lines 117-133 (and the
closed-only variant at lines 1055-1071): `null` when the data set is
empty or no record matches the previous calendar month, otherwise the
sales sum of the matching records.  The calendar-boundary test (a JS
`Date` range comparison against the wall clock, plus the closed-only
condition in the second variant) is passed in as the membership
predicate `inLastMonth`. -/
def previousMonthSales (data : List DepotDayEvent)
    (inLastMonth : DepotDayEvent → Bool) : Option ℚ :=
  if data.isEmpty then none
  else
    let lastMonthData := data.filter inLastMonth
    if lastMonthData.isEmpty then none
    else some (sumSalesCM lastMonthData)

/-- `monthOverMonthChange`, src/unnamed/part_002 lines 135-139 and
1073-1077: `null` when the previous-month sum is `null` or `0`, else
`(current - previous) / previous * 100`. -/
def monthOverMonthChange (currentTotal : ℚ) : Option ℚ → Option ℚ
  | none => none
  | some p => if p = 0 then none else some ((currentTotal - p) / p * 100)


/-- C2: for all non-negative integers opening, sales, restock with
restock ≤ opening + sales, `getExpectedCash` equals
opening + sales − restock exactly and is non-negative, and
mobile/electronic sales do not enter the expected-cash base. -/
theorem getExpectedCash_spec (opening sales restock : ℕ) (mob closing : ℚ)
    (h : restock ≤ opening + sales) :
    getExpectedCash ⟨(opening : ℚ), (sales : ℚ), mob, (restock : ℚ), closing⟩
        = (opening : ℚ) + (sales : ℚ) - (restock : ℚ) ∧
    0 ≤ getExpectedCash ⟨(opening : ℚ), (sales : ℚ), mob, (restock : ℚ), closing⟩ ∧
    ∀ mob2 : ℚ,
      getExpectedCash ⟨(opening : ℚ), (sales : ℚ), mob2, (restock : ℚ), closing⟩
        = getExpectedCash ⟨(opening : ℚ), (sales : ℚ), mob, (restock : ℚ), closing⟩ := by
  refine ⟨rfl, ?_, fun _ => rfl⟩
  have h2 : (restock : ℚ) ≤ (opening : ℚ) + (sales : ℚ) := by exact_mod_cast h
  simp only [getExpectedCash]
  linarith

/-- Witness for C2 at opening = 100000, sales = 50000, restock = 0. -/
theorem getExpectedCash_spec_witness :
    0 ≤ getExpectedCash ⟨((100000 : ℕ) : ℚ), ((50000 : ℕ) : ℚ), 0, ((0 : ℕ) : ℚ), 150000⟩ :=
  (getExpectedCash_spec 100000 50000 0 0 150000 (by norm_num)).2.1

/-- C3 counterexample: at (hasOpen = false, hasClose = true) the
resolver reports NOT_OPENED, so the claimed rule "CLOSED when a close
record exists" fails there, and no distinct inconsistent variant is
produced either. -/
theorem resolveState_counterexample :
    resolveState false true = DepotDayState.NOT_OPENED ∧
    resolveState false true ≠ DepotDayState.CLOSED := by decide

/-- C3 amended: the resolver always returns one of the three states;
open existence is checked first, so CLOSED is reported exactly when both
records exist, OPENED when only the open record exists, and NOT_OPENED
whenever no open record exists — in particular the pair (false, true)
yields NOT_OPENED, never CLOSED. -/
theorem resolveState_spec : ∀ hasOpen hasClose : Bool,
    (resolveState hasOpen hasClose = DepotDayState.NOT_OPENED ∨
     resolveState hasOpen hasClose = DepotDayState.OPENED ∨
     resolveState hasOpen hasClose = DepotDayState.CLOSED) ∧
    resolveState hasOpen hasClose =
      (if hasOpen then
        (if hasClose then DepotDayState.CLOSED else DepotDayState.OPENED)
       else DepotDayState.NOT_OPENED) ∧
    resolveState false true ≠ DepotDayState.CLOSED := by decide

/-- C4: for non-negative event counts the trust score is
100 − 5·lateOpens − 10·missedCloses − 25·varianceDays − 1·inactiveDays
clamped to [0, 100]; penalties beyond 100 points give exactly 0. -/
theorem computeTrustScore_spec (l m v i : ℤ) (_hl : 0 ≤ l) (_hm : 0 ≤ m)
    (_hv : 0 ≤ v) (_hi : 0 ≤ i) :
    computeTrustScore ⟨l, m, v, i⟩
        = max 0 (min 100 (100 - 5 * l - 10 * m - 25 * v - 1 * i)) ∧
    (0 ≤ computeTrustScore ⟨l, m, v, i⟩ ∧ computeTrustScore ⟨l, m, v, i⟩ ≤ 100) ∧
    (100 < 5 * l + 10 * m + 25 * v + 1 * i → computeTrustScore ⟨l, m, v, i⟩ = 0) := by
  refine ⟨?_, ⟨?_, ?_⟩, fun h => ?_⟩ <;> simp only [computeTrustScore] <;> omega

/-- Witness for C4: five variance days (125 penalty points) score
exactly 0. -/
theorem computeTrustScore_spec_witness : computeTrustScore ⟨0, 0, 5, 0⟩ = 0 :=
  (computeTrustScore_spec 0 0 5 0 (by norm_num) (by norm_num) (by norm_num)
    (by norm_num)).2.2 (by norm_num)

/-- C6 counterexample: with zero compliance events the pipeline input
has inactiveDays = 30 − 0 = 30, so the trust score is 70, not the
claimed perfect 100. -/
theorem emptyHistory_counterexample :
    computeTrustScore (trustInputOfEvents []) = 70 ∧ (70 : ℤ) ≠ 100 := by decide

/-- C6 amended: a depot with no history yields zero late-open,
missed-close and variance counts and a clean streak of 0, but the 30
empty days count as inactive days at 1 point each, so the pipeline
produces a trust score of 70 (and status NOT_CLEAN), not 100. -/
theorem emptyHistory_spec : ∀ (s : String) (t : ℤ),
    trustInputOfEvents [] = ⟨0, 0, 0, 30⟩ ∧
    computeTrustScore (trustInputOfEvents []) = 70 ∧
    (computeDepotCompliance ⟨s, []⟩ t).consecutiveCleanDays = 0 ∧
    (computeDepotCompliance ⟨s, []⟩ t).status = ComplianceStatus.NOT_CLEAN := by
  intro s t
  exact ⟨by decide, by decide, rfl, rfl⟩

/-- C9: the code counts an open as late only when the hour component
exceeds 8, so an 08:30 open — strictly later than the 08:00 cutoff, and
late according to the claim and the code's own comments — is not
flagged. -/
theorem openedLate_boundary :
    openedLateAt (some ⟨8, 30⟩) = false ∧ specLaterThanCutoff ⟨8, 30⟩ = true := by
  decide

/-- C10: `computeSystemCompliance` is total — 0 when
expectedEvents ≤ 0, otherwise the rounded percentage, which lies in
[0, 100] whenever 0 ≤ validEvents ≤ expectedEvents. -/
theorem computeSystemCompliance_spec (e v : ℚ) :
    (e ≤ 0 → computeSystemCompliance e v = 0) ∧
    (0 < e → computeSystemCompliance e v = jsRound (v / e * 100)) ∧
    (0 ≤ v → v ≤ e →
      0 ≤ computeSystemCompliance e v ∧ computeSystemCompliance e v ≤ 100) := by
  refine ⟨?_, ?_, ?_⟩
  · intro h
    simp only [computeSystemCompliance]
    rw [if_neg (not_lt.mpr h)]
  · intro h
    simp only [computeSystemCompliance]
    rw [if_pos h]
  · intro hv hve
    by_cases hpos : 0 < e
    · simp only [computeSystemCompliance, jsRound]
      rw [if_pos hpos]
      have hq1 : v / e ≤ 1 := (div_le_one hpos).mpr hve
      have hq0 : 0 ≤ v / e := div_nonneg hv (le_of_lt hpos)
      constructor
      · exact Int.floor_nonneg.mpr (by nlinarith)
      · have h101 : ⌊v / e * 100 + 1 / 2⌋ < (101 : ℤ) := by
          apply Int.floor_lt.mpr
          push_cast
          nlinarith
        omega
    · simp only [computeSystemCompliance]
      rw [if_neg hpos]
      norm_num

/-- Witness for C10 at expectedEvents = 4, validEvents = 3. -/
theorem computeSystemCompliance_spec_witness :
    0 ≤ computeSystemCompliance 4 3 ∧ computeSystemCompliance 4 3 ≤ 100 :=
  (computeSystemCompliance_spec 4 3).2.2 (by norm_num) (by norm_num)

/-- C1 counterexample: at expected = 100000 and actual = 90000 the code
returns diff = 10000 (it takes an absolute value), not the claimed
actual − expected = −10000. -/
theorem getCashReview_counterexample :
    (getCashReview ⟨100000, 0, 0, 0, 90000⟩).diff = 10000 ∧
    (getCashReview ⟨100000, 0, 0, 0, 90000⟩).actual
        - (getCashReview ⟨100000, 0, 0, 0, 90000⟩).expected = -10000 ∧
    (getCashReview ⟨100000, 0, 0, 0, 90000⟩).diff
        ≠ (getCashReview ⟨100000, 0, 0, 0, 90000⟩).actual
          - (getCashReview ⟨100000, 0, 0, 0, 90000⟩).expected := by
  norm_num [getCashReview, getExpectedCash]

/-- C1 amended: `getCashReview` returns diff = |actual − expected|,
pct = diff / expected × 100 when expected > 0 and pct = 0 otherwise
(also when expected = 0), and needsReview = true exactly when
(expected == 0 ? actual ≠ 0 : pct > the named 5% tolerance constant);
the cited examples hold: (100000, 104000) gives pct = 4 without review,
(100000, 106000) gives pct = 6 with review. -/
theorem getCashReview_spec (d : DepotDayEvent) :
    (getCashReview d).expected = getExpectedCash d ∧
    (getCashReview d).actual = d.closing_cash_physical ∧
    (getCashReview d).diff = |d.closing_cash_physical - getExpectedCash d| ∧
    (0 < getExpectedCash d → (getCashReview d).pct
        = |d.closing_cash_physical - getExpectedCash d| / getExpectedCash d * 100) ∧
    (getExpectedCash d ≤ 0 → (getCashReview d).pct = 0) ∧
    ((getCashReview d).needsReview = true ↔
      (if getExpectedCash d = 0 then d.closing_cash_physical ≠ 0
       else CASH_REVIEW_TOLERANCE_PCT < (getCashReview d).pct)) ∧
    ((getCashReview ⟨100000, 0, 0, 0, 104000⟩).pct = 4 ∧
     (getCashReview ⟨100000, 0, 0, 0, 104000⟩).needsReview = false ∧
     (getCashReview ⟨100000, 0, 0, 0, 106000⟩).pct = 6 ∧
     (getCashReview ⟨100000, 0, 0, 0, 106000⟩).needsReview = true) := by
  have hpct : (getCashReview d).pct
      = if 0 < getExpectedCash d
        then |d.closing_cash_physical - getExpectedCash d| / getExpectedCash d * 100
        else 0 := rfl
  have hnr : (getCashReview d).needsReview
      = if getExpectedCash d = 0 then decide (d.closing_cash_physical ≠ 0)
        else decide (CASH_REVIEW_TOLERANCE_PCT < (getCashReview d).pct) := rfl
  refine ⟨rfl, rfl, rfl, ?_, ?_, ?_, ?_⟩
  · intro h
    rw [hpct, if_pos h]
  · intro h
    rw [hpct, if_neg (not_lt.mpr h)]
  · by_cases he : getExpectedCash d = 0
    · rw [hnr, if_pos he, if_pos he]
      simp
    · rw [hnr, if_neg he, if_neg he]
      simp
  · refine ⟨?_, ?_, ?_, ?_⟩ <;>
      norm_num [getCashReview, getExpectedCash, CASH_REVIEW_TOLERANCE_PCT]

/-- Witness for C1, instantiating the positive-expected branch at the
first cited example. -/
theorem getCashReview_spec_witness :
    (getCashReview ⟨100000, 0, 0, 0, 104000⟩).pct
      = |(104000 : ℚ) - getExpectedCash ⟨100000, 0, 0, 0, 104000⟩|
        / getExpectedCash ⟨100000, 0, 0, 0, 104000⟩ * 100 :=
  (getCashReview_spec ⟨100000, 0, 0, 0, 104000⟩).2.2.2.1
    (by norm_num [getExpectedCash])

/-- The streak loop counts exactly the length of the maximal clean
prefix of the (descending-sorted) event list. -/
theorem cleanStreak_eq_takeWhile (l : List ComplianceEventInput) :
    cleanStreak l = (l.takeWhile isClean).length := by
  induction l with
  | nil => rfl
  | cons e rest ih =>
    by_cases h : isClean e = true
    · simp [cleanStreak, List.takeWhile, h, ih]
    · simp only [Bool.not_eq_true] at h
      simp [cleanStreak, List.takeWhile, h]

/-- C5: `computeDepotCompliance` computes the clean streak as the
length of the maximal prefix of the most-recent-first sorted events in
which every day satisfies !openedLate && closed && !hasVariance
(stopping at the first violation), reports CLEAN exactly when that
streak is at least 7, and both outputs are independent of the numeric
trust score passed in. -/
theorem computeDepotCompliance_spec : ∀ (input : ComplianceInput) (t : ℤ),
    (computeDepotCompliance input t).consecutiveCleanDays
        = ((sortEventsDesc input.events).takeWhile isClean).length ∧
    ((computeDepotCompliance input t).status = ComplianceStatus.CLEAN ↔
      7 ≤ (computeDepotCompliance input t).consecutiveCleanDays) ∧
    (∀ t2 : ℤ,
      (computeDepotCompliance input t2).consecutiveCleanDays
          = (computeDepotCompliance input t).consecutiveCleanDays ∧
      (computeDepotCompliance input t2).status
          = (computeDepotCompliance input t).status) := by
  intro input t
  refine ⟨cleanStreak_eq_takeWhile _, ?_, fun t2 => ⟨rfl, rfl⟩⟩
  show (if 7 ≤ cleanStreak (sortEventsDesc input.events) then ComplianceStatus.CLEAN
        else ComplianceStatus.NOT_CLEAN) = ComplianceStatus.CLEAN ↔
      7 ≤ cleanStreak (sortEventsDesc input.events)
  by_cases h : 7 ≤ cleanStreak (sortEventsDesc input.events)
  · simp [h]
  · simp [h]

/-- Folding the sales sum from an arbitrary accumulator shifts the
result by that accumulator. -/
theorem foldl_sales_shift (l : List DailySalesInput) :
    ∀ a : ℚ, l.foldl (fun s d => s + d.sales) a
      = a + l.foldl (fun s d => s + d.sales) 0 := by
  induction l with
  | nil => intro a; simp
  | cons d rest ih =>
    intro a
    simp only [List.foldl_cons]
    rw [ih (a + d.sales), ih (0 + d.sales)]
    ring

/-- Summing a constant-sales list gives length times the constant. -/
theorem sumSales_const (V : ℚ) (l : List DailySalesInput)
    (h : ∀ e ∈ l, e.sales = V) : sumSales l = (l.length : ℚ) * V := by
  induction l with
  | nil => simp [sumSales]
  | cons d rest ih =>
    have hd : d.sales = V := h d (List.mem_cons_self d rest)
    have hr : sumSales rest = (rest.length : ℚ) * V :=
      ih (fun e he => h e (List.mem_cons_of_mem d he))
    simp only [sumSales, List.foldl_cons] at hr ⊢
    rw [foldl_sales_shift, hr, hd]
    simp only [List.length_cons]
    push_cast
    ring

/-- Every element of a rolling window is an element of the series. -/
theorem mem_of_mem_windowAt {x : DailySalesInput} {l : List DailySalesInput}
    {i : ℕ} (h : x ∈ windowAt l i) : x ∈ l :=
  List.mem_of_mem_drop (List.mem_of_mem_take h)

/-- Within the series, the rolling window at index i has exactly
min 7 (i + 1) elements. -/
theorem windowAt_length (l : List DailySalesInput) (i : ℕ) (h : i < l.length) :
    (windowAt l i).length = min 7 (i + 1) := by
  simp only [windowAt, List.length_take, List.length_drop]
  omega

/-- On a constant-sales series, every chart point emitted by the indexed
map carries the constant as its rolling average. -/
theorem chartDataAux_const (s : List DailySalesInput) (V : ℚ)
    (hs : ∀ e ∈ s, e.sales = V) :
    ∀ (rest : List DailySalesInput) (i : ℕ), i + rest.length ≤ s.length →
      ∀ p ∈ chartDataAux s i rest, p.rollingAvg = V := by
  intro rest
  induction rest with
  | nil =>
    intro i hle p hp
    simp [chartDataAux] at hp
  | cons item rest2 ih =>
    intro i hle p hp
    simp only [chartDataAux, List.mem_cons] at hp
    rcases hp with hp | hp
    · have hi : i < s.length := by
        simp only [List.length_cons] at hle
        omega
      have hlen : (windowAt s i).length = min 7 (i + 1) := windowAt_length s i hi
      have hne : ((windowAt s i).length : ℚ) ≠ 0 := by
        rw [hlen]
        have : 0 < min 7 (i + 1) := by omega
        exact_mod_cast Nat.pos_iff_ne_zero.mp this
      have hsum : sumSales (windowAt s i) = ((windowAt s i).length : ℚ) * V :=
        sumSales_const V _ (fun e he => hs e (mem_of_mem_windowAt he))
      rw [hp]
      show sumSales (windowAt s i) / ((windowAt s i).length : ℚ) = V
      rw [hsum, mul_div_cancel_left₀ _ hne]
    · exact ih (i + 1)
        (by simp only [List.length_cons] at hle; omega) p hp

/-- C7: over an ascending-date series, the rolling window at each index
holds min(7, points so far) values, and on a constant series of value V
every per-point rolling average — and, with at least 7 points, the
trailing 7-day average — equals V exactly. -/
theorem rollingAverage_spec (l : List DailySalesInput) (V : ℚ)
    (hsorted : List.Sorted (fun a b : DailySalesInput => a.date ≤ b.date) l)
    (hconst : ∀ e ∈ l, e.sales = V) :
    (∀ i, i < l.length → (windowAt l i).length = min 7 (i + 1)) ∧
    (∀ p ∈ chartData l, p.rollingAvg = V) ∧
    (7 ≤ l.length → last7Avg l = V) := by
  have hsort_eq : sortSalesAsc l = l := List.Sorted.insertionSort_eq hsorted
  refine ⟨fun i hi => windowAt_length l i hi, ?_, ?_⟩
  · intro p hp
    simp only [chartData, hsort_eq] at hp
    exact chartDataAux_const l V hconst l 0 (by simp) p hp
  · intro h7
    simp only [last7Avg, hsort_eq]
    have hlen : (l.drop (l.length - 7)).length = 7 := by
      simp only [List.length_drop]
      omega
    have hne : ((l.drop (l.length - 7)).length : ℚ) ≠ 0 := by
      rw [hlen]
      norm_num
    have hsum : sumSales (l.drop (l.length - 7))
        = ((l.drop (l.length - 7)).length : ℚ) * V :=
      sumSales_const V _ (fun e he => hconst e (List.mem_of_mem_drop he))
    rw [hsum, mul_div_cancel_left₀ _ hne]

/-- A small constant sales series used to witness C7. -/
def sampleSeries : List DailySalesInput :=
  [⟨1, 5⟩, ⟨2, 5⟩, ⟨3, 5⟩, ⟨4, 5⟩, ⟨5, 5⟩, ⟨6, 5⟩, ⟨7, 5⟩]

/-- Witness for C7 on a seven-point constant series of value 5. -/
theorem rollingAverage_spec_witness :
    (windowAt sampleSeries 2).length = min 7 3 ∧ last7Avg sampleSeries = 5 :=
  ⟨(rollingAverage_spec sampleSeries 5 (by decide) (by decide)).1 2 (by decide),
   (rollingAverage_spec sampleSeries 5 (by decide) (by decide)).2.2 (by decide)⟩

/-- C8: the month-over-month change is `none` exactly when the previous
calendar month has no matching records or their sales sum to zero, and
whenever it is `some q`, the previous sum is non-zero and
q = (current − previous) / previous × 100. -/
theorem monthOverMonthChange_spec (data : List DepotDayEvent)
    (inLastMonth : DepotDayEvent → Bool) (currentTotal : ℚ) :
    (monthOverMonthChange currentTotal (previousMonthSales data inLastMonth) = none ↔
      data.filter inLastMonth = [] ∨ sumSalesCM (data.filter inLastMonth) = 0) ∧
    (∀ q : ℚ,
      monthOverMonthChange currentTotal (previousMonthSales data inLastMonth) = some q →
      sumSalesCM (data.filter inLastMonth) ≠ 0 ∧
      q = (currentTotal - sumSalesCM (data.filter inLastMonth))
            / sumSalesCM (data.filter inLastMonth) * 100) := by
  by_cases hd : data.isEmpty
  · have hdata : data = [] := List.isEmpty_iff.mp hd
    subst hdata
    simp [previousMonthSales, monthOverMonthChange, sumSalesCM]
  · by_cases hf : (data.filter inLastMonth).isEmpty
    · have hfe : data.filter inLastMonth = [] := List.isEmpty_iff.mp hf
      simp only [previousMonthSales, hd, Bool.false_eq_true, if_false, hf, if_true]
      simp [monthOverMonthChange, hfe, sumSalesCM]
    · have hfe : data.filter inLastMonth ≠ [] := fun h =>
        hf (List.isEmpty_iff.mpr h)
      simp only [previousMonthSales, hd, Bool.false_eq_true, if_false, hf, if_false]
      by_cases hs : sumSalesCM (data.filter inLastMonth) = 0
      · simp [monthOverMonthChange, hs, hfe]
      · simp only [monthOverMonthChange, hs, if_neg hs]
        constructor
        · simp [hfe, hs]
        · intro q hq
          exact ⟨hs, (Option.some.inj hq).symm⟩

/-- Witness for C8: one previous-month record with sales 200 against a
current total of 300 yields a +50% change. -/
theorem monthOverMonthChange_spec_witness :
    sumSalesCM (List.filter (fun _ => true) [(⟨0, 200, 0, 0, 0⟩ : DepotDayEvent)]) ≠ 0 ∧
    (50 : ℚ) = (300 - sumSalesCM (List.filter (fun _ => true)
          [(⟨0, 200, 0, 0, 0⟩ : DepotDayEvent)]))
        / sumSalesCM (List.filter (fun _ => true)
          [(⟨0, 200, 0, 0, 0⟩ : DepotDayEvent)]) * 100 :=
  (monthOverMonthChange_spec [⟨0, 200, 0, 0, 0⟩] (fun _ => true) 300).2 50 (by
    norm_num [monthOverMonthChange, previousMonthSales, sumSalesCM, List.filter])
